import Mathlib

/-!
Verification of the hidi dependency container (`src/container.ts`).

The container is a hierarchical key-value registry: values are registered
under a string identifier derived from an injectable key (a string or a
named class/constructor reference), looked up locally first and then
through an optional parent chain.

The embedding models JavaScript values (`JSValue`), the `Map<string, _>`
entry table as an association list, and the mutable object graph of
containers as a heap: a list of `ContainerState`, indexed by `Nat`
container ids, so that aliasing (a child holding a reference to its
parent) and mutation (`register`, `setParent`) are explicit.  Lookup
(`get`, `has`) recurses along the parent chain, which may be cyclic, so
it is written with explicit fuel: a `none` result means the recursion did
not finish within the given fuel.  Thrown JavaScript errors are modelled
as `Except String`, carrying the error message.
-/

/-- The JavaScript values relevant to the container: `undefined`, `null`,
booleans, numbers, strings, function/class references carrying their
declared `.name` (empty for anonymous ones), and opaque object
references. -/
inductive JSValue where
  | undef : JSValue
  | null : JSValue
  | bool (b : Bool) : JSValue
  | num (n : Int) : JSValue
  | str (s : String) : JSValue
  | func (name : String) : JSValue
  | obj (id : Nat) : JSValue
  deriving DecidableEq, Repr

/-- JavaScript `Map.prototype.set`: overwrite the entry in place when the
key is present, otherwise append it. -/
def mapSet : List (String × JSValue) → String → JSValue → List (String × JSValue)
  | [], k, v => [(k, v)]
  | (k', v') :: rest, k, v =>
      if k' = k then (k, v) :: rest else (k', v') :: mapSet rest k v

/-- JavaScript `Map.prototype.get` combined with `Map.prototype.has`:
`some v` when the key is present with value `v` (which may itself be
`JSValue.undef`), `none` when absent. -/
def mapGet : List (String × JSValue) → String → Option JSValue
  | [], _ => none
  | (k', v') :: rest, k => if k' = k then some v' else mapGet rest k

/-- The per-object state of one `DependencyContainer`: its `dependencies`
map and its optional `parent` reference (a heap address). -/
structure ContainerState where
  dependencies : List (String × JSValue)
  parent : Option Nat
  deriving DecidableEq, Repr

instance : Inhabited ContainerState := ⟨⟨[], none⟩⟩

/-- The object heap: container states addressed by `Nat` ids. -/
abbrev Heap := List ContainerState

/-- Dereference a container id (ids handed out by `newContainer` and
`extend` are always in range). -/
def stateOf (heap : Heap) (cid : Nat) : ContainerState :=
  heap.getD cid ⟨[], none⟩

namespace DependencyContainer

/-- `new DependencyContainer()`: allocate a fresh container with an empty
dependency map and no parent, returning the new heap and the new id. -/
def newContainer (heap : Heap) : Heap × Nat :=
  (heap ++ [⟨[], none⟩], heap.length)

/-- `DependencyContainer.getInjectableKey`: a string key is used verbatim,
a function/class key contributes its declared name; the falsy results
(no key, or the empty string) throw `Cannot get key for injectable.`. -/
def getInjectableKey (injectable : JSValue) : Except String String :=
  let key : Option String :=
    match injectable with
    | .str s => some s
    | .func n => some n
    | _ => none
  match key with
  | some k =>
      if k = "" then .error "Cannot get key for injectable." else .ok k
  | none => .error "Cannot get key for injectable."

/-- `DependencyContainer.register`: resolve the key (propagating its
error) and set the entry in this container's own map. -/
def register (heap : Heap) (cid : Nat) (key inj : JSValue) :
    Except String Heap :=
  match getInjectableKey key with
  | .error e => .error e
  | .ok k =>
      .ok (heap.set cid
        { stateOf heap cid with
          dependencies := mapSet (stateOf heap cid).dependencies k inj })

/-- `DependencyContainer.get` with explicit fuel: resolve the key; on a
local hit return the stored value; on a miss delegate to the parent with
the original injectable, or return `undefined` at a root.  `none` means
the parent-chain recursion did not finish within the fuel. -/
def get (heap : Heap) : Nat → Nat → JSValue → Option (Except String JSValue)
  | 0, _, _ => none
  | fuel + 1, cid, injectable =>
    match getInjectableKey injectable with
    | .error e => some (.error e)
    | .ok key =>
      match mapGet (stateOf heap cid).dependencies key with
      | some v => some (.ok v)
      | none =>
        match (stateOf heap cid).parent with
        | some p => get heap fuel p injectable
        | none => some (.ok .undef)

/-- `DependencyContainer.has` with explicit fuel: resolve the key; true on
a local hit, otherwise ask the parent (passing the resolved string key,
as the source does), defaulting to false at a root. -/
def has (heap : Heap) : Nat → Nat → JSValue → Option (Except String Bool)
  | 0, _, _ => none
  | fuel + 1, cid, injectable =>
    match getInjectableKey injectable with
    | .error e => some (.error e)
    | .ok key =>
      if (mapGet (stateOf heap cid).dependencies key).isSome then
        some (.ok true)
      else
        match (stateOf heap cid).parent with
        | some p => has heap fuel p (.str key)
        | none => some (.ok false)

/-- `DependencyContainer.require`: call `get`; when the result is
`undefined` throw `Required dependency '<name>' not found in container`,
otherwise return the value. -/
def require (heap : Heap) (fuel cid : Nat) (injectable : JSValue) :
    Option (Except String JSValue) :=
  match get heap fuel cid injectable with
  | none => none
  | some (.error e) => some (.error e)
  | some (.ok value) =>
    if value = .undef then
      match getInjectableKey injectable with
      | .error e => some (.error e)
      | .ok name =>
          some (.error
            ("Required dependency '" ++ name ++ "' not found in container"))
    else some (.ok value)

/-- `DependencyContainer.extend`: allocate a brand-new container whose
parent is `cid` and whose own map is empty, returning the new heap and
the child's id. -/
def extend (heap : Heap) (cid : Nat) : Heap × Nat :=
  (heap ++ [⟨[], some cid⟩], heap.length)

/-- `DependencyContainer.setParent`: replace this container's parent
reference. -/
def setParent (heap : Heap) (cid pid : Nat) : Heap :=
  heap.set cid { stateOf heap cid with parent := some pid }

end DependencyContainer

/-- The parent chain from `cid` reaches a parentless container in exactly
`n` steps: the finite, acyclic case. -/
inductive RootedIn (heap : Heap) : Nat → Nat → Prop where
  | root (cid : Nat) : (stateOf heap cid).parent = none → RootedIn heap cid 0
  | step (cid p n : Nat) : (stateOf heap cid).parent = some p →
      RootedIn heap p n → RootedIn heap cid (n + 1)

deriving instance DecidableEq for Except

/-! ### Basic lemmas about the map and the heap -/

theorem mapGet_mapSet_self (m : List (String × JSValue)) (k : String)
    (v : JSValue) : mapGet (mapSet m k v) k = some v := by
  induction m with
  | nil => simp [mapSet, mapGet]
  | cons hd tl ih =>
      obtain ⟨k', v'⟩ := hd
      by_cases h : k' = k <;> simp [mapSet, mapGet, h, ih]

theorem mapGet_mapSet_ne (m : List (String × JSValue)) (k k' : String)
    (v : JSValue) (h : k ≠ k') :
    mapGet (mapSet m k v) k' = mapGet m k' := by
  induction m with
  | nil => simp [mapSet, mapGet, h]
  | cons hd tl ih =>
      obtain ⟨k0, v0⟩ := hd
      by_cases h0 : k0 = k
      · subst h0
        simp [mapSet, mapGet, h]
      · by_cases h1 : k0 = k'
        · subst h1
          simp [mapSet, mapGet, h0]
        · simp [mapSet, mapGet, h0, h1, ih]

theorem stateOf_set_self (heap : Heap) (cid : Nat) (st : ContainerState)
    (h : cid < heap.length) : stateOf (heap.set cid st) cid = st := by
  simp [stateOf, List.getD, List.getElem?_set_self, h]

theorem stateOf_set_ne (heap : Heap) (cid cid' : Nat) (st : ContainerState)
    (h : cid ≠ cid') : stateOf (heap.set cid st) cid' = stateOf heap cid' := by
  simp [stateOf, List.getD, List.getElem?_set_ne h]

theorem stateOf_append_new (heap : Heap) (st : ContainerState) :
    stateOf (heap ++ [st]) heap.length = st := by
  simp [stateOf, List.getD, List.getElem?_append_right (Nat.le_refl _)]

theorem stateOf_append_lt (heap : Heap) (st : ContainerState) (cid : Nat)
    (h : cid < heap.length) : stateOf (heap ++ [st]) cid = stateOf heap cid := by
  simp [stateOf, List.getD, List.getElem?_append, h]

namespace DependencyContainer

/-! ### Lemmas about key resolution -/

theorem getInjectableKey_ok_ne_empty {k : JSValue} {s : String}
    (h : getInjectableKey k = .ok s) : s ≠ "" := by
  cases k <;> simp [getInjectableKey] at h
  case str s' =>
    by_cases h0 : s' = ""
    · simp [h0] at h
    · simp [h0] at h
      subst h
      exact h0
  case func n =>
    by_cases h0 : n = ""
    · simp [h0] at h
    · simp [h0] at h
      subst h
      exact h0

theorem getInjectableKey_str {s : String} (h : s ≠ "") :
    getInjectableKey (.str s) = .ok s := by
  simp [getInjectableKey, h]

/-! ### Unfolding lemmas for the fuelled operations -/

theorem get_hit {heap : Heap} {cid : Nat} {k : JSValue} {s : String}
    {v : JSValue} (fuel : Nat) (hk : getInjectableKey k = .ok s)
    (hv : mapGet (stateOf heap cid).dependencies s = some v) :
    get heap (fuel + 1) cid k = some (.ok v) := by
  simp [get, hk, hv]

theorem get_miss_parent {heap : Heap} {cid p : Nat} {k : JSValue} {s : String}
    (fuel : Nat) (hk : getInjectableKey k = .ok s)
    (hv : mapGet (stateOf heap cid).dependencies s = none)
    (hp : (stateOf heap cid).parent = some p) :
    get heap (fuel + 1) cid k = get heap fuel p k := by
  simp [get, hk, hv, hp]

theorem get_miss_root {heap : Heap} {cid : Nat} {k : JSValue} {s : String}
    (fuel : Nat) (hk : getInjectableKey k = .ok s)
    (hv : mapGet (stateOf heap cid).dependencies s = none)
    (hp : (stateOf heap cid).parent = none) :
    get heap (fuel + 1) cid k = some (.ok .undef) := by
  simp [get, hk, hv, hp]

theorem has_hit {heap : Heap} {cid : Nat} {k : JSValue} {s : String}
    (fuel : Nat) (hk : getInjectableKey k = .ok s)
    (hv : (mapGet (stateOf heap cid).dependencies s).isSome = true) :
    has heap (fuel + 1) cid k = some (.ok true) := by
  simp [has, hk, hv]

theorem has_miss_parent {heap : Heap} {cid p : Nat} {k : JSValue} {s : String}
    (fuel : Nat) (hk : getInjectableKey k = .ok s)
    (hv : mapGet (stateOf heap cid).dependencies s = none)
    (hp : (stateOf heap cid).parent = some p) :
    has heap (fuel + 1) cid k = has heap fuel p (.str s) := by
  simp [has, hk, hv, hp]

theorem has_miss_root {heap : Heap} {cid : Nat} {k : JSValue} {s : String}
    (fuel : Nat) (hk : getInjectableKey k = .ok s)
    (hv : mapGet (stateOf heap cid).dependencies s = none)
    (hp : (stateOf heap cid).parent = none) :
    has heap (fuel + 1) cid k = some (.ok false) := by
  simp [has, hk, hv, hp]

theorem require_of_get_ok {heap : Heap} {fuel cid : Nat} {k v : JSValue}
    (hg : get heap fuel cid k = some (.ok v)) (hv : v ≠ .undef) :
    require heap fuel cid k = some (.ok v) := by
  simp [require, hg, hv]

theorem require_of_get_undef {heap : Heap} {fuel cid : Nat} {k : JSValue}
    {s : String} (hk : getInjectableKey k = .ok s)
    (hg : get heap fuel cid k = some (.ok .undef)) :
    require heap fuel cid k =
      some (.error ("Required dependency '" ++ s ++ "' not found in container")) := by
  simp [require, hg, hk]

/-- The state produced by `register` for a valid key. -/
theorem register_ok {heap : Heap} {cid : Nat} {k : JSValue} {s : String}
    (inj : JSValue) (hk : getInjectableKey k = .ok s) :
    register heap cid k inj =
      .ok (heap.set cid
        { stateOf heap cid with
          dependencies := mapSet (stateOf heap cid).dependencies s inj }) := by
  simp [register, hk]

end DependencyContainer

namespace DependencyContainer

/-- `require` finishes whenever `get` does. -/
theorem require_isSome_of_get {heap : Heap} {fuel cid : Nat} {k : JSValue}
    (h : (get heap fuel cid k).isSome = true) :
    (require heap fuel cid k).isSome = true := by
  unfold require
  match hg : get heap fuel cid k with
  | none => rw [hg] at h; simp at h
  | some (.error e) => simp
  | some (.ok v) =>
      by_cases hv : v = .undef
      · cases hk : getInjectableKey k <;> simp [hv, hk]
      · simp [hv]

/-- Inversion of a successful `register`: the produced heap. -/
theorem register_ok_inv {heap heap2 : Heap} {cid : Nat} {k : JSValue}
    {s : String} {inj : JSValue} (hk : getInjectableKey k = .ok s)
    (h : register heap cid k inj = .ok heap2) :
    heap2 = heap.set cid
      { stateOf heap cid with
        dependencies := mapSet (stateOf heap cid).dependencies s inj } := by
  rw [register_ok inj hk] at h
  exact (Except.ok.injEq _ _ ▸ h).symm

end DependencyContainer

namespace DependencyContainer

/-- After a successful `register`, the registered identifier maps to the
registered value in the container's own table. -/
theorem register_hit {heap heap2 : Heap} {cid : Nat} {k : JSValue}
    {s : String} {v : JSValue}
    (hk : getInjectableKey k = .ok s) (hcid : cid < heap.length)
    (hreg : register heap cid k v = .ok heap2) :
    mapGet (stateOf heap2 cid).dependencies s = some v := by
  have h2 := register_ok_inv hk hreg
  subst h2
  rw [stateOf_set_self heap cid _ hcid]
  exact mapGet_mapSet_self _ s v

/-- After a successful `register`, `get` and `has` on the same container
find the registered value locally. -/
theorem register_then_lookup {heap heap2 : Heap} {cid : Nat} {k : JSValue}
    {s : String} {v : JSValue}
    (hk : getInjectableKey k = .ok s) (hcid : cid < heap.length)
    (hreg : register heap cid k v = .ok heap2) :
    ∀ fuel, get heap2 (fuel + 1) cid k = some (.ok v) ∧
      has heap2 (fuel + 1) cid k = some (.ok true) := by
  intro fuel
  have hhit := register_hit hk hcid hreg
  exact ⟨get_hit fuel hk hhit, has_hit fuel hk (by simp [hhit])⟩

/-- `register` does not change the heap length. -/
theorem register_length {heap heap2 : Heap} {cid : Nat} {k : JSValue}
    {s : String} {v : JSValue} (hk : getInjectableKey k = .ok s)
    (hreg : register heap cid k v = .ok heap2) :
    heap2.length = heap.length := by
  rw [register_ok_inv hk hreg]
  exact List.length_set heap _ _

end DependencyContainer

open DependencyContainer

/-- C1: for every registry, valid key (one resolving to an identifier) and
value, immediately after `register(K, V)` a `get(K)` on the same registry
returns `V` and `has(K)` returns true, at any fuel. -/
theorem C1_register_then_get_has (heap heap2 : Heap) (cid : Nat)
    (k v : JSValue) (s : String)
    (hk : getInjectableKey k = .ok s) (hcid : cid < heap.length)
    (hreg : register heap cid k v = .ok heap2) :
    ∀ fuel, get heap2 (fuel + 1) cid k = some (.ok v) ∧
      has heap2 (fuel + 1) cid k = some (.ok true) :=
  register_then_lookup hk hcid hreg

/-- C1 witness: a concrete registration on a one-container heap. -/
theorem C1_witness :
    getInjectableKey (.str "A") = .ok "A" ∧
    0 < ([⟨[], none⟩] : Heap).length ∧
    register [⟨[], none⟩] 0 (.str "A") (.num 1) = .ok [⟨[("A", .num 1)], none⟩] ∧
    get [⟨[("A", .num 1)], none⟩] 1 0 (.str "A") = some (.ok (.num 1)) ∧
    has [⟨[("A", .num 1)], none⟩] 1 0 (.str "A") = some (.ok true) :=
  ⟨by decide, by decide, by decide,
    C1_register_then_get_has [⟨[], none⟩] [⟨[("A", .num 1)], none⟩] 0
      (.str "A") (.num 1) "A" (by decide) (by decide) (by decide) 0⟩

/-- The inputs C5 describes as invalid: the empty string, and anything
that is neither a string nor a named function/class reference. -/
def isInvalidKey : JSValue → Bool
  | .str s => s = ""
  | .func n => n = ""
  | _ => true

/-- C5: every invalid key makes `getInjectableKey` fail with exactly
`Cannot get key for injectable.`, and the same error propagates unchanged
through `register`, `get`, `require` and `has` (and, `register` failing
before any write, no heap is produced: resolution has no side effects). -/
theorem C5_invalid_key_error (k : JSValue) (h : isInvalidKey k = true) :
    getInjectableKey k = .error "Cannot get key for injectable." ∧
    (∀ (heap : Heap) (cid : Nat) (v : JSValue),
      register heap cid k v = .error "Cannot get key for injectable.") ∧
    (∀ (heap : Heap) (fuel cid : Nat),
      get heap (fuel + 1) cid k = some (.error "Cannot get key for injectable.")) ∧
    (∀ (heap : Heap) (fuel cid : Nat),
      require heap (fuel + 1) cid k = some (.error "Cannot get key for injectable.")) ∧
    (∀ (heap : Heap) (fuel cid : Nat),
      has heap (fuel + 1) cid k = some (.error "Cannot get key for injectable.")) := by
  have hk : getInjectableKey k = .error "Cannot get key for injectable." := by
    cases k <;> simp [isInvalidKey] at h <;> simp [getInjectableKey, h]
  refine ⟨hk, ?_, ?_, ?_, ?_⟩
  · intro heap cid v
    simp [register, hk]
  · intro heap fuel cid
    simp [DependencyContainer.get, hk]
  · intro heap fuel cid
    simp [require, DependencyContainer.get, hk]
  · intro heap fuel cid
    simp [has, hk]

/-- C5 witness: the number 42 as a key, on a concrete heap. -/
theorem C5_witness :
    isInvalidKey (.num 42) = true ∧
    getInjectableKey (.num 42) = .error "Cannot get key for injectable." ∧
    require [⟨[], none⟩] 3 0 (.num 42) =
      some (.error "Cannot get key for injectable.") :=
  ⟨by decide, (C5_invalid_key_error (.num 42) (by decide)).1,
    (C5_invalid_key_error (.num 42) (by decide)).2.2.2.1 [⟨[], none⟩] 2 0⟩

/-- C6: a non-empty string key resolves to itself verbatim; a type
reference resolves to its declared name; and registering under a type
reference then looking up under the same type reference succeeds, the
identifier being the declared name. -/
theorem C6_identifier_derivation :
    (∀ s : String, s ≠ "" → getInjectableKey (.str s) = .ok s) ∧
    (∀ n : String, n ≠ "" → getInjectableKey (.func n) = .ok n) ∧
    (∀ (heap heap2 : Heap) (cid : Nat) (n : String) (v : JSValue),
      n ≠ "" → cid < heap.length →
      register heap cid (.func n) v = .ok heap2 →
      ∀ fuel, get heap2 (fuel + 1) cid (.func n) = some (.ok v) ∧
        mapGet (stateOf heap2 cid).dependencies n = some v) := by
  have hfunc : ∀ n : String, n ≠ "" → getInjectableKey (.func n) = .ok n := by
    intro n hn
    simp [getInjectableKey, hn]
  refine ⟨?_, hfunc, ?_⟩
  · intro s hs
    simp [getInjectableKey, hs]
  · intro heap heap2 cid n v hn hcid hreg fuel
    have hhit := register_hit (hfunc n hn) hcid hreg
    exact ⟨get_hit fuel (hfunc n hn) hhit, hhit⟩

/-- C6 witness: the class `MyService`, registered and looked up under its
own type reference. -/
theorem C6_witness :
    getInjectableKey (.str "MyKey") = .ok "MyKey" ∧
    getInjectableKey (.func "MyService") = .ok "MyService" ∧
    get [⟨[("MyService", .obj 7)], none⟩] 1 0 (.func "MyService") =
      some (.ok (.obj 7)) :=
  ⟨C6_identifier_derivation.1 "MyKey" (by decide),
    C6_identifier_derivation.2.1 "MyService" (by decide),
    (C6_identifier_derivation.2.2 [⟨[], none⟩] [⟨[("MyService", .obj 7)], none⟩]
      0 "MyService" (.obj 7) (by decide) (by decide) (by decide) 0).1⟩

/-- C7: registering twice under the same key retains only the last value:
after `register(K, V1); register(K, V2)`, `get(K)` returns `V2`. -/
theorem C7_overwrite (heap heap1 heap2 : Heap) (cid : Nat)
    (k v1 v2 : JSValue) (s : String)
    (hk : getInjectableKey k = .ok s) (hcid : cid < heap.length)
    (h1 : register heap cid k v1 = .ok heap1)
    (h2 : register heap1 cid k v2 = .ok heap2) :
    ∀ fuel, get heap2 (fuel + 1) cid k = some (.ok v2) := by
  intro fuel
  have hlen1 : heap1.length = heap.length := register_length hk h1
  exact (register_then_lookup hk (hlen1 ▸ hcid) h2 fuel).1

/-- C7 witness: registering 1 then 2 under the key `A` leaves 2. -/
theorem C7_witness :
    register [⟨[], none⟩] 0 (.str "A") (.num 1) = .ok [⟨[("A", .num 1)], none⟩] ∧
    register [⟨[("A", .num 1)], none⟩] 0 (.str "A") (.num 2) =
      .ok [⟨[("A", .num 2)], none⟩] ∧
    get [⟨[("A", .num 2)], none⟩] 1 0 (.str "A") = some (.ok (.num 2)) :=
  ⟨by decide, by decide,
    C7_overwrite [⟨[], none⟩] [⟨[("A", .num 1)], none⟩] [⟨[("A", .num 2)], none⟩]
      0 (.str "A") (.num 1) (.num 2) "A" (by decide) (by decide)
      (by decide) (by decide) 0⟩

/-- C3: after `parent.register(K, V)` and `child = parent.extend()`, the
child is brand new with an empty own table and the parent as its parent
reference, and `child.get(K)` returns `V`, `child.has(K)` true, by
delegation to the parent. -/
theorem C3_parent_fallback (heap heap1 heap2 : Heap) (p c : Nat)
    (k v : JSValue) (s : String)
    (hk : getInjectableKey k = .ok s) (hp : p < heap.length)
    (hreg : register heap p k v = .ok heap1)
    (hext : extend heap1 p = (heap2, c)) :
    stateOf heap2 c = ⟨[], some p⟩ ∧
    (∀ fuel, get heap2 (fuel + 2) c k = some (.ok v) ∧
      has heap2 (fuel + 2) c k = some (.ok true)) := by
  simp only [extend, Prod.mk.injEq] at hext
  obtain ⟨hh2, hc⟩ := hext
  subst hh2
  subst hc
  have hp1 : p < heap1.length := by
    rw [register_length hk hreg]
    exact hp
  have hchild : stateOf (heap1 ++ [⟨[], some p⟩]) heap1.length = ⟨[], some p⟩ :=
    stateOf_append_new heap1 _
  have hpstate : stateOf (heap1 ++ [⟨[], some p⟩]) p = stateOf heap1 p :=
    stateOf_append_lt heap1 _ p hp1
  have hhit : mapGet (stateOf (heap1 ++ [⟨[], some p⟩]) p).dependencies s = some v := by
    rw [hpstate]
    exact register_hit hk hp hreg
  have hmiss : mapGet (stateOf (heap1 ++ [⟨[], some p⟩]) heap1.length).dependencies s = none := by
    rw [hchild]
    rfl
  have hpar : (stateOf (heap1 ++ [⟨[], some p⟩]) heap1.length).parent = some p := by
    rw [hchild]
  refine ⟨hchild, fun fuel => ⟨?_, ?_⟩⟩
  · rw [get_miss_parent (fuel + 1) hk hmiss hpar]
    exact get_hit fuel hk hhit
  · rw [has_miss_parent (fuel + 1) hk hmiss hpar]
    exact has_hit fuel (getInjectableKey_str (getInjectableKey_ok_ne_empty hk))
      (by simp [hhit])

/-- C3 witness: a concrete parent with key `A`, then an extension. -/
theorem C3_witness :
    extend [⟨[("A", .num 1)], none⟩] 0 =
      ([⟨[("A", .num 1)], none⟩, ⟨[], some 0⟩], 1) ∧
    stateOf [⟨[("A", .num 1)], none⟩, ⟨[], some 0⟩] 1 = ⟨[], some 0⟩ ∧
    get [⟨[("A", .num 1)], none⟩, ⟨[], some 0⟩] 2 1 (.str "A") =
      some (.ok (.num 1)) ∧
    has [⟨[("A", .num 1)], none⟩, ⟨[], some 0⟩] 2 1 (.str "A") =
      some (.ok true) := by
  have h := C3_parent_fallback [⟨[], none⟩] [⟨[("A", .num 1)], none⟩]
    [⟨[("A", .num 1)], none⟩, ⟨[], some 0⟩] 0 1 (.str "A") (.num 1) "A"
    (by decide) (by decide) (by decide) (by decide)
  exact ⟨by decide, h.1, (h.2 0).1, (h.2 0).2⟩

/-- C2: with `parent.register(K, V1)`, `child = parent.extend()` and
`child.register(K, V2)`, the child resolves `K` to `V2`, the parent still
resolves `K` to `V1`, and the child's registration left the parent's
state untouched. -/
theorem C2_child_precedence (heap heap1 heap2 heap3 : Heap) (p c : Nat)
    (k v1 v2 : JSValue) (s : String)
    (hk : getInjectableKey k = .ok s) (hp : p < heap.length)
    (h1 : register heap p k v1 = .ok heap1)
    (hext : extend heap1 p = (heap2, c))
    (h2 : register heap2 c k v2 = .ok heap3) :
    (∀ fuel, get heap3 (fuel + 1) c k = some (.ok v2)) ∧
    (∀ fuel, get heap3 (fuel + 1) p k = some (.ok v1)) ∧
    stateOf heap3 p = stateOf heap2 p := by
  simp only [extend, Prod.mk.injEq] at hext
  obtain ⟨hh2, hc⟩ := hext
  have hp1 : p < heap1.length := by
    rw [register_length hk h1]
    exact hp
  have hclt : c < heap2.length := by
    rw [← hh2, ← hc]
    simp
  have hnecp : c ≠ p := by
    rw [← hc]
    exact fun h => Nat.lt_irrefl p (h ▸ hp1)
  have hframe : stateOf heap3 p = stateOf heap2 p := by
    rw [register_ok_inv hk h2]
    exact stateOf_set_ne heap2 c p _ hnecp
  have hhit1 : mapGet (stateOf heap3 p).dependencies s = some v1 := by
    rw [hframe, ← hh2, stateOf_append_lt heap1 _ p hp1]
    exact register_hit hk hp h1
  exact ⟨fun fuel => (register_then_lookup hk hclt h2 fuel).1,
    fun fuel => get_hit fuel hk hhit1, hframe⟩

/-- C2 witness: parent holds 1 under `A`, child overrides with 2. -/
theorem C2_witness :
    register [⟨[("A", .num 1)], none⟩, ⟨[], some 0⟩] 1 (.str "A") (.num 2) =
      .ok [⟨[("A", .num 1)], none⟩, ⟨[("A", .num 2)], some 0⟩] ∧
    get [⟨[("A", .num 1)], none⟩, ⟨[("A", .num 2)], some 0⟩] 1 1 (.str "A") =
      some (.ok (.num 2)) ∧
    get [⟨[("A", .num 1)], none⟩, ⟨[("A", .num 2)], some 0⟩] 1 0 (.str "A") =
      some (.ok (.num 1)) ∧
    stateOf [⟨[("A", .num 1)], none⟩, ⟨[("A", .num 2)], some 0⟩] 0 =
      stateOf [⟨[("A", .num 1)], none⟩, ⟨[], some 0⟩] 0 := by
  have h := C2_child_precedence [⟨[], none⟩] [⟨[("A", .num 1)], none⟩]
    [⟨[("A", .num 1)], none⟩, ⟨[], some 0⟩]
    [⟨[("A", .num 1)], none⟩, ⟨[("A", .num 2)], some 0⟩] 0 1
    (.str "A") (.num 1) (.num 2) "A"
    (by decide) (by decide) (by decide) (by decide) (by decide)
  exact ⟨by decide, h.1 0, h.2.1 0, h.2.2⟩

/-- C4: on a parentless registry where the identifier is not registered,
`get` returns `undefined` (absent, not an error) and `require` throws
exactly `Required dependency '<identifier>' not found in container`;
whenever `get` finds a (non-absent) value, `require` returns that same
value. -/
theorem C4_miss_semantics (heap : Heap) (cid : Nat) (k : JSValue) (s : String)
    (hk : getInjectableKey k = .ok s)
    (hroot : (stateOf heap cid).parent = none)
    (hmiss : mapGet (stateOf heap cid).dependencies s = none) :
    (∀ fuel, get heap (fuel + 1) cid k = some (.ok .undef) ∧
      require heap (fuel + 1) cid k =
        some (.error ("Required dependency '" ++ s ++ "' not found in container"))) ∧
    (∀ (fuel : Nat) (k' v : JSValue), get heap fuel cid k' = some (.ok v) →
      v ≠ .undef → require heap fuel cid k' = some (.ok v)) := by
  constructor
  · intro fuel
    have hg := get_miss_root fuel hk hmiss hroot
    exact ⟨hg, require_of_get_undef hk hg⟩
  · intro fuel k' v hg hv
    exact require_of_get_ok hg hv

/-- C4 witness: the key `NonExistent` on an empty root container, and a
hit on a key that is present. -/
theorem C4_witness :
    get [⟨[("A", .num 1)], none⟩] 1 0 (.str "NonExistent") = some (.ok .undef) ∧
    require [⟨[("A", .num 1)], none⟩] 1 0 (.str "NonExistent") =
      some (.error "Required dependency 'NonExistent' not found in container") ∧
    require [⟨[("A", .num 1)], none⟩] 1 0 (.str "A") = some (.ok (.num 1)) := by
  have h := C4_miss_semantics [⟨[("A", .num 1)], none⟩] 0 (.str "NonExistent")
    "NonExistent" (by decide) (by decide) (by decide)
  exact ⟨(h.1 0).1, (h.1 0).2, h.2 1 (.str "A") (.num 1) (by decide) (by decide)⟩

/-- C10: registering `undefined` under a valid key makes `has` report the
key as present and `get` return `undefined`, yet `require` still throws
the not-found error: `require` tests the retrieved value against
`undefined`, not entry presence. -/
theorem C10_registered_undefined (heap heap2 : Heap) (cid : Nat)
    (k : JSValue) (s : String)
    (hk : getInjectableKey k = .ok s) (hcid : cid < heap.length)
    (hreg : register heap cid k .undef = .ok heap2) :
    ∀ fuel, has heap2 (fuel + 1) cid k = some (.ok true) ∧
      get heap2 (fuel + 1) cid k = some (.ok .undef) ∧
      require heap2 (fuel + 1) cid k =
        some (.error ("Required dependency '" ++ s ++ "' not found in container")) := by
  intro fuel
  obtain ⟨hg, hh⟩ := register_then_lookup hk hcid hreg fuel
  exact ⟨hh, hg, require_of_get_undef hk hg⟩

/-- C10 witness: `undefined` registered under `A`. -/
theorem C10_witness :
    register [⟨[], none⟩] 0 (.str "A") .undef = .ok [⟨[("A", .undef)], none⟩] ∧
    has [⟨[("A", .undef)], none⟩] 1 0 (.str "A") = some (.ok true) ∧
    get [⟨[("A", .undef)], none⟩] 1 0 (.str "A") = some (.ok .undef) ∧
    require [⟨[("A", .undef)], none⟩] 1 0 (.str "A") =
      some (.error "Required dependency 'A' not found in container") := by
  have h := C10_registered_undefined [⟨[], none⟩] [⟨[("A", .undef)], none⟩] 0
    (.str "A") "A" (by decide) (by decide) (by decide) 0
  exact ⟨by decide, h.1, h.2.1, h.2.2⟩

/-- C8: `setParent` replaces exactly the parent reference: the
container's own entry table is unchanged, every other container is
unchanged, and a subsequent lookup that misses the own table delegates
(for `get`, `has` and hence `require`) to the new parent immediately. -/
theorem C8_setParent_frame (heap : Heap) (cid pid : Nat)
    (hcid : cid < heap.length) :
    (stateOf (setParent heap cid pid) cid).dependencies
        = (stateOf heap cid).dependencies ∧
    (stateOf (setParent heap cid pid) cid).parent = some pid ∧
    (∀ c, c ≠ cid → stateOf (setParent heap cid pid) c = stateOf heap c) ∧
    (∀ (k : JSValue) (s : String) (fuel : Nat), getInjectableKey k = .ok s →
      mapGet (stateOf (setParent heap cid pid) cid).dependencies s = none →
      get (setParent heap cid pid) (fuel + 1) cid k
          = get (setParent heap cid pid) fuel pid k ∧
      has (setParent heap cid pid) (fuel + 1) cid k
          = has (setParent heap cid pid) fuel pid (.str s) ∧
      require (setParent heap cid pid) (fuel + 1) cid k =
        (match get (setParent heap cid pid) fuel pid k with
          | none => none
          | some (.error e) => some (.error e)
          | some (.ok value) =>
            if value = JSValue.undef then
              some (.error ("Required dependency '" ++ s ++ "' not found in container"))
            else some (.ok value))) := by
  have hst : stateOf (setParent heap cid pid) cid
      = { stateOf heap cid with parent := some pid } :=
    stateOf_set_self heap cid _ hcid
  have hpar : (stateOf (setParent heap cid pid) cid).parent = some pid := by
    rw [hst]
  refine ⟨by rw [hst], hpar, ?_, ?_⟩
  · intro c hc
    exact stateOf_set_ne heap cid c _ (fun h => hc h.symm)
  · intro k s fuel hk hmiss
    have hg := get_miss_parent fuel hk hmiss hpar
    refine ⟨hg, has_miss_parent fuel hk hmiss hpar, ?_⟩
    rw [require, hg, hk]

/-- C8 witness: re-parenting an empty container onto a parent that holds
the key `A`. -/
theorem C8_witness :
    setParent [⟨[("A", .num 1)], none⟩, ⟨[("B", .num 2)], none⟩] 1 0 =
      [⟨[("A", .num 1)], none⟩, ⟨[("B", .num 2)], some 0⟩] ∧
    (stateOf [⟨[("A", .num 1)], none⟩, ⟨[("B", .num 2)], some 0⟩] 1).dependencies
      = [("B", .num 2)] ∧
    (stateOf [⟨[("A", .num 1)], none⟩, ⟨[("B", .num 2)], some 0⟩] 1).parent
      = some 0 ∧
    get [⟨[("A", .num 1)], none⟩, ⟨[("B", .num 2)], some 0⟩] 2 1 (.str "A") =
      get [⟨[("A", .num 1)], none⟩, ⟨[("B", .num 2)], some 0⟩] 1 0 (.str "A") := by
  have h := C8_setParent_frame [⟨[("A", .num 1)], none⟩, ⟨[("B", .num 2)], none⟩]
    1 0 (by decide)
  exact ⟨by decide, h.1, h.2.1, (h.2.2.2 (.str "A") "A" 1 (by decide) (by decide)).1⟩

namespace DependencyContainer

/-- On a parent chain rooted in `n` steps, `get` finishes with `n + 1`
fuel. -/
theorem get_isSome_of_rooted {heap : Heap} {cid n : Nat} {k : JSValue}
    {s : String} (hr : RootedIn heap cid n)
    (hk : getInjectableKey k = .ok s) :
    (get heap (n + 1) cid k).isSome = true := by
  induction hr with
  | root cid hp =>
      cases hv : mapGet (stateOf heap cid).dependencies s with
      | some v => rw [get_hit 0 hk hv]; rfl
      | none => rw [get_miss_root 0 hk hv hp]; rfl
  | step cid p m hp hr ih =>
      cases hv : mapGet (stateOf heap cid).dependencies s with
      | some v => rw [get_hit (m + 1) hk hv]; rfl
      | none => rw [get_miss_parent (m + 1) hk hv hp]; exact ih

/-- On a parent chain rooted in `n` steps, `has` finishes with `n + 1`
fuel (the recursion re-keys with the resolved string). -/
theorem has_isSome_of_rooted {heap : Heap} {cid n : Nat} {s : String}
    (hr : RootedIn heap cid n) :
    ∀ k : JSValue, getInjectableKey k = .ok s →
      (has heap (n + 1) cid k).isSome = true := by
  induction hr with
  | root cid hp =>
      intro k hk
      cases hv : mapGet (stateOf heap cid).dependencies s with
      | some v => rw [has_hit 0 hk (by simp [hv])]; rfl
      | none => rw [has_miss_root 0 hk hv hp]; rfl
  | step cid p m hp hr ih =>
      intro k hk
      cases hv : mapGet (stateOf heap cid).dependencies s with
      | some v => rw [has_hit (m + 1) hk (by simp [hv])]; rfl
      | none =>
          rw [has_miss_parent (m + 1) hk hv hp]
          exact ih (.str s) (getInjectableKey_str (getInjectableKey_ok_ne_empty hk))

/-- On an unrooted (cyclic) region that misses the key everywhere, `get`
runs out of any amount of fuel. -/
theorem get_none_of_cycle {heap : Heap} {P : Nat → Prop} {k : JSValue}
    {s : String} (hk : getInjectableKey k = .ok s)
    (hcyc : ∀ c, P c → mapGet (stateOf heap c).dependencies s = none ∧
      ∃ q, (stateOf heap c).parent = some q ∧ P q) :
    ∀ (fuel c : Nat), P c → get heap fuel c k = none := by
  intro fuel
  induction fuel with
  | zero =>
      intro c _
      rfl
  | succ m ih =>
      intro c hc
      obtain ⟨hmiss, q, hq, hPq⟩ := hcyc c hc
      rw [get_miss_parent m hk hmiss hq]
      exact ih q hPq

end DependencyContainer

/-- C9: on a finite, acyclic parent chain every lookup (`get`, `has`,
`require`) finishes; and on a region of the heap where every container
misses the key and has a parent inside the region (a cycle), `get` fails
to finish for every amount of fuel: no cycle detection exists. -/
theorem C9_termination_and_cycle :
    (∀ (heap : Heap) (cid n : Nat) (k : JSValue) (s : String),
      RootedIn heap cid n → getInjectableKey k = .ok s →
      (get heap (n + 1) cid k).isSome = true ∧
      (has heap (n + 1) cid k).isSome = true ∧
      (require heap (n + 1) cid k).isSome = true) ∧
    (∀ (heap : Heap) (P : Nat → Prop) (k : JSValue) (s : String),
      getInjectableKey k = .ok s →
      (∀ c, P c → mapGet (stateOf heap c).dependencies s = none ∧
        ∃ q, (stateOf heap c).parent = some q ∧ P q) →
      ∀ (fuel c : Nat), P c → get heap fuel c k = none) := by
  constructor
  · intro heap cid n k s hr hk
    have hg := get_isSome_of_rooted hr hk
    exact ⟨hg, has_isSome_of_rooted hr k hk, require_isSome_of_get hg⟩
  · intro heap P k s hk hcyc
    exact get_none_of_cycle hk hcyc

/-- C9 witness: a rooted one-container heap resolves with fuel 1; the
one-container heap whose parent is itself never resolves a miss. -/
theorem C9_witness :
    (get [⟨[], none⟩] 1 0 (.str "X")).isSome = true ∧
    (require [⟨[], none⟩] 1 0 (.str "X")).isSome = true ∧
    get [⟨[], some 0⟩] 7 0 (.str "X") = none := by
  have h1 := C9_termination_and_cycle.1 [⟨[], none⟩] 0 0 (.str "X") "X"
    (RootedIn.root 0 (by decide)) (by decide)
  have h2 := C9_termination_and_cycle.2 [⟨[], some 0⟩] (fun c => c = 0)
    (.str "X") "X" (by decide)
    (fun c hc => by subst hc; exact ⟨by decide, 0, by decide, rfl⟩) 7 0 rfl
  exact ⟨h1.1, h1.2.2, h2⟩
